import Mathlib

/-!
Verification of the normalization and preference-projection pipeline of
`src/extension/background.js` (Quick Definition background service worker).

The development contains three embeddings of the relevant code:

1. A JSON-value level embedding (`JVal`) of the two provider adapters
   `normalizeMwData` and `normalizeGeminiData`, with JavaScript property
   access, truthiness, strict equality and template-string semantics made
   explicit, and exceptions modelled by `Except JsErr`.
2. A typed embedding of the preference projector `applyDisplayPreferences`
   and of the cache-key template `displaySettingsCacheKey`, over a typed
   `Entry` record matching the canonical entry shape the adapters emit.
3. A heap embedding (`applyDisplayPreferencesHeap`) in which entries,
   definition arrays, definitions and example arrays are addressed heap
   nodes, used to state that the projector allocates fresh nodes and never
   writes to an existing address (the no-mutation claim).
-/

/-- JavaScript error outcome: the adapters can only fail with a TypeError
(property access on `undefined`/`null`, or calling a string method on a
non-string). We do not need to distinguish error messages. -/
inductive JsErr where
  | typeError
deriving DecidableEq, Repr

/-- JSON-like JavaScript values: `undefined`, `null`, booleans, (integer)
numbers, strings, arrays and objects (ordered field lists, first binding
wins on lookup, as in object literals without duplicate keys). -/
inductive JVal where
  | undef
  | null
  | bool (b : Bool)
  | num (n : Int)
  | str (s : String)
  | arr (xs : List JVal)
  | obj (fs : List (String × JVal))
deriving Inhabited

/-- JavaScript truthiness: `undefined`, `null`, `false`, `0` and the empty
string are falsy; arrays and objects (even empty ones) are truthy. -/
def truthy : JVal → Bool
  | .undef => false
  | .null => false
  | .bool b => b
  | .num n => n != 0
  | .str s => s ≠ ""
  | .arr _ => true
  | .obj _ => true

/-- JavaScript `typeof` (note `typeof null == "object"`). -/
def jsTypeof : JVal → String
  | .undef => "undefined"
  | .null => "object"
  | .bool _ => "boolean"
  | .num _ => "number"
  | .str _ => "string"
  | .arr _ => "object"
  | .obj _ => "object"

/-- JavaScript `||`: the first operand when truthy, otherwise the second. -/
def jsOrVal (a b : JVal) : JVal :=
  if truthy a then a else b

mutual

/-- JavaScript string conversion (as in template literals): arrays join
their elements with commas, with `undefined`/`null` elements becoming the
empty string; plain objects display as "[object Object]". -/
def jsToString : JVal → String
  | .undef => "undefined"
  | .null => "null"
  | .bool true => "true"
  | .bool false => "false"
  | .num n => toString n
  | .str s => s
  | .arr xs => jsToStringElems xs
  | .obj _ => "[object Object]"

/-- Comma-joined element strings of an array, per `Array.prototype.toString`. -/
def jsToStringElems : List JVal → String
  | [] => ""
  | [x] => jsToStringElem x
  | x :: y :: rest => jsToStringElem x ++ "," ++ jsToStringElems (y :: rest)

/-- One array element as a string: `undefined` and `null` print as "". -/
def jsToStringElem : JVal → String
  | .undef => ""
  | .null => ""
  | v => jsToString v

end

/-- Numeric conversion of a trimmed string: "" is 0, an optional sign
followed by decimal digits is that integer, anything else is NaN (`none`).
(The source only ever compares `length` values numerically, so fractional
and exponent forms never arise; they conservatively map to NaN here.) -/
def strToNumOpt (s : String) : Option Int :=
  let t := s.trim
  if t = "" then some 0
  else if t.data.all Char.isDigit then some (t.toNat!)
  else if t.startsWith "-" ∧ (t.drop 1).data ≠ [] ∧ (t.drop 1).data.all Char.isDigit then
    some (-(t.drop 1).toNat!)
  else none

/-- JavaScript `ToNumber`, with `none` playing NaN: numbers are themselves,
`null` is 0, booleans are 0/1, `undefined` is NaN, strings parse or are
NaN, and arrays/objects convert through their string form. -/
def toNumberOpt : JVal → Option Int
  | .undef => none
  | .null => some 0
  | .bool b => some (if b then 1 else 0)
  | .num n => some n
  | .str s => strToNumOpt s
  | .arr xs => strToNumOpt (jsToString (.arr xs))
  | .obj fs => strToNumOpt (jsToString (.obj fs))

/-- JavaScript `v > n` against a number literal: NaN comparisons are false. -/
def jsGreaterNum (v : JVal) (n : Int) : Bool :=
  match toNumberOpt v with
  | some m => m > n
  | none => false

/-- JavaScript strict equality `===` between a value and a number literal
(the only strict comparisons against numbers the source makes). -/
def jsStrictEqNum (v : JVal) (n : Int) : Bool :=
  match v with
  | .num m => m = n
  | _ => false

/-- JavaScript strict equality `===` between a value and a string literal. -/
def jsStrictEqStr (v : JVal) (s : String) : Bool :=
  match v with
  | .str t => t = s
  | _ => false

/-- JavaScript property access `v.k`: throws TypeError on `undefined` and
`null`; `length` is live on strings and arrays; object fields look up the
first binding, absent keys give `undefined`; other primitives have no own
properties of interest and give `undefined`. -/
def jsGetProp (v : JVal) (k : String) : Except JsErr JVal :=
  match v with
  | .undef => .error .typeError
  | .null => .error .typeError
  | .str s => .ok (if k = "length" then .num s.length else .undef)
  | .arr xs => .ok (if k = "length" then .num xs.length else .undef)
  | .obj fs => .ok (((fs.lookup k).getD .undef))
  | _ => .ok (.undef)

/-- JavaScript index access `v[i]` for a non-negative integer literal:
throws on `undefined`/`null`, indexes arrays and strings (out of bounds is
`undefined`), looks the decimal key up on objects. -/
def jsIndex (v : JVal) (i : Nat) : Except JsErr JVal :=
  match v with
  | .undef => .error .typeError
  | .null => .error .typeError
  | .arr xs => .ok (xs.getD i .undef)
  | .str s => .ok (if i < s.length then .str (String.mk [s.data.getD i ' ']) else .undef)
  | .obj fs => .ok ((fs.lookup (toString i)).getD .undef)
  | _ => .ok (.undef)

/-- One pass of `String.prototype.replace` with a global alternation of the
two markup tokens an open brace, `x`, `y`, close brace and an open brace,
slash, `x`, `y`, close brace (the source uses the pairs it/wi): scan left
to right, drop each match, keep every other character. -/
def stripMarkup (x y : Char) : List Char → List Char
  | '{' :: a :: b :: '}' :: rest =>
    if a = x ∧ b = y then stripMarkup x y rest
    else '{' :: stripMarkup x y (a :: b :: '}' :: rest)
  | '{' :: '/' :: a :: b :: '}' :: rest =>
    if a = x ∧ b = y then stripMarkup x y rest
    else '{' :: stripMarkup x y ('/' :: a :: b :: '}' :: rest)
  | c :: rest => c :: stripMarkup x y rest
  | [] => []

/-- Line 31: strip the italic markup tokens (the `it` pair). -/
def jsReplaceIt (s : String) : String := String.mk (stripMarkup 'i' 't' s.data)

/-- Line 33: strip the word-identification markup tokens (the `wi` pair). -/
def jsReplaceWi (s : String) : String := String.mk (stripMarkup 'w' 'i' s.data)

/-- JavaScript `String.prototype.startsWith` on the receiver's characters. -/
def jsStartsWith (s p : String) : Bool := p.data.isPrefixOf s.data

/-- JavaScript `String.prototype.charAt(0)`: first character as a one-char
string, or the empty string for an empty receiver. -/
def jsCharAt0 (s : String) : String :=
  match s.data with
  | [] => ""
  | c :: _ => String.mk [c]

/-- JavaScript regular-expression test for a leading underscore followed by
a decimal digit (the pattern caret underscore 0-9 of line 24). -/
def mwMatchUnderscoreDigit (s : String) : Bool :=
  match s.data with
  | '_' :: c :: _ => '0' ≤ c ∧ c ≤ '9'
  | _ => false

/-- Line 24: bucket selection for the Provider A audio file name. -/
def mwAudioSubdir (audioFile : String) : String :=
  if jsStartsWith audioFile "bix" then "bix"
  else if jsStartsWith audioFile "gg" then "gg"
  else if mwMatchUnderscoreDigit audioFile then "number"
  else jsCharAt0 audioFile

/-- Line 25: the audio URL template for Provider A. -/
def mwAudioUrl (audioFile : String) : String :=
  "https://media.merriam-webster.com/audio/prons/en/us/wav/" ++ mwAudioSubdir audioFile
    ++ "/" ++ audioFile ++ ".wav"

/-- Lines 19-27 of `normalizeMwData`: the pronunciation block. Returns the
final values of `pronunciation.pron` and `pronunciation.url` (both start as
the empty string and are only assigned when the guard chain holds). -/
def mwPronPart (entry : JVal) : Except JsErr (String × String) :=
  match jsGetProp entry "hwi" with
  | .error e => .error e
  | .ok hwi =>
    if ¬ truthy hwi then .ok ("", "")
    else match jsGetProp hwi "prs" with
    | .error e => .error e
    | .ok prs =>
      if ¬ truthy prs then .ok ("", "")
      else match jsIndex prs 0 with
      | .error e => .error e
      | .ok p0 =>
        if ¬ truthy p0 then .ok ("", "")
        else match jsGetProp p0 "mw" with
        | .error e => .error e
        | .ok mwv =>
          let pron := "/" ++ jsToString mwv ++ "/"
          match jsGetProp p0 "sound" with
          | .error e => .error e
          | .ok sound =>
            if ¬ truthy sound then .ok (pron, "")
            else match jsGetProp sound "audio" with
            | .error e => .error e
            | .ok audio =>
              match audio with
              | .str a => .ok (pron, mwAudioUrl a)
              | _ => .error .typeError

/-- Line 28 of `normalizeMwData`: the `pos` and `text` fields of the
definition object (part of speech falls back to "unknown", definition text
to "No definition found.", via JavaScript `||`). -/
def mwDefnBase (entry : JVal) : Except JsErr (JVal × JVal) :=
  match jsGetProp entry "fl" with
  | .error e => .error e
  | .ok fl =>
    let posV := jsOrVal fl (.str "unknown")
    match jsGetProp entry "shortdef" with
    | .error e => .error e
    | .ok sd =>
      match jsIndex sd 0 with
      | .error e => .error e
      | .ok sd0 => .ok (posV, jsOrVal sd0 (.str "No definition found."))

/-- Line 29 condition: `entry.suppl && entry.suppl.examples &&
entry.suppl.examples.length > 0`, together with the `examples` value the
taken branch reuses. -/
def mwSupplCond (entry : JVal) : Except JsErr (Bool × JVal) :=
  match jsGetProp entry "suppl" with
  | .error e => .error e
  | .ok suppl =>
    if ¬ truthy suppl then .ok (false, .undef)
    else match jsGetProp suppl "examples" with
    | .error e => .error e
    | .ok exs =>
      if ¬ truthy exs then .ok (false, exs)
      else match jsGetProp exs "length" with
      | .error e => .error e
      | .ok len => .ok (jsGreaterNum len 0, exs)

/-- Lines 30-31: take the first supplemental example's `t` text, strip the
italic markup, and push one example object (which carries only a `text`
key, as in the source's object literal). -/
def mwSupplExample (exs : JVal) : Except JsErr (List JVal) :=
  match jsIndex exs 0 with
  | .error e => .error e
  | .ok e0 =>
    match jsGetProp e0 "t" with
    | .error e => .error e
    | .ok t =>
      match t with
      | .str s => .ok [.obj [("text", .str (jsReplaceIt s))]]
      | _ => .error .typeError

/-- Line 32 condition: `entry.def && entry.def[0].sseq`. Evaluated outside
the `try`, so a missing element at `entry.def[0]` throws. -/
def mwDefCond (entry : JVal) : Except JsErr Bool :=
  match jsGetProp entry "def" with
  | .error e => .error e
  | .ok defv =>
    if ¬ truthy defv then .ok false
    else match jsIndex defv 0 with
    | .error e => .error e
    | .ok d0 =>
      match jsGetProp d0 "sseq" with
      | .error e => .error e
      | .ok ss => .ok (truthy ss)

/-- The `find` of line 33: first `dt` item whose element 0 is the string
"vis"; indexing a nullish item inside the callback throws. -/
def jsFindVis : List JVal → Except JsErr (Option JVal)
  | [] => .ok none
  | x :: xs =>
    match jsIndex x 0 with
    | .error e => .error e
    | .ok c => if jsStrictEqStr c "vis" then .ok (some x) else jsFindVis xs

/-- The body of the `try` on line 33: walk
`entry.def[0].sseq[0][0][1].dt`, find the "vis" item, take its first
illustrative text and strip the word-identification markup. Any thrown
error is the caught structural failure. -/
def mwTryVis (entry : JVal) : Except JsErr (List JVal) :=
  match jsGetProp entry "def" with
  | .error e => .error e
  | .ok defv =>
  match jsIndex defv 0 with
  | .error e => .error e
  | .ok d0 =>
  match jsGetProp d0 "sseq" with
  | .error e => .error e
  | .ok ss =>
  match jsIndex ss 0 with
  | .error e => .error e
  | .ok s0 =>
  match jsIndex s0 0 with
  | .error e => .error e
  | .ok s00 =>
  match jsIndex s00 1 with
  | .error e => .error e
  | .ok firstSense =>
  match jsGetProp firstSense "dt" with
  | .error e => .error e
  | .ok dt =>
  match dt with
  | .arr items =>
    match jsFindVis items with
    | .error e => .error e
    | .ok none => .ok []
    | .ok (some vis) =>
      match jsIndex vis 1 with
      | .error e => .error e
      | .ok v1 =>
      match jsIndex v1 0 with
      | .error e => .error e
      | .ok v10 =>
      match jsGetProp v10 "t" with
      | .error e => .error e
      | .ok t =>
        match t with
        | .str s => .ok [.obj [("text", .str (jsReplaceWi s))]]
        | _ => .error .typeError
  | _ => .ok []

/-- Line 33's `try`/`catch`: a structural failure inside the deep walk is
swallowed and yields zero examples. -/
def mwVisExamples (entry : JVal) : List JVal :=
  match mwTryVis entry with
  | .error _ => []
  | .ok exs => exs

/-- Lines 29-34: the example-extraction strategies in order: supplemental
examples first, then the guarded deep sense-sequence walk. -/
def mwExamplesPart (entry : JVal) (c1 : Bool) (exsV : JVal) : Except JsErr (List JVal) :=
  if c1 then mwSupplExample exsV
  else match mwDefCond entry with
  | .error e => .error e
  | .ok c2 => if c2 then .ok (mwVisExamples entry) else .ok []

/-- Line 35: the headword, `entry.meta.id.split(':')[0]`. -/
def mwWord (entry : JVal) : Except JsErr String :=
  match jsGetProp entry "meta" with
  | .error e => .error e
  | .ok meta =>
    match jsGetProp meta "id" with
    | .error e => .error e
    | .ok idv =>
      match idv with
      | .str s => .ok ((s.splitOn ":").headD "")
      | _ => .error .typeError

/-- The object literal returned on line 35 (the Provider A canonical
entry); its definition object carries the keys pos, text, example only. -/
def mkMwEntry (w pron url : String) (posV textV : JVal) (exs : List JVal) : JVal :=
  .obj [("word", .str w),
        ("pos", .arr [posV]),
        ("verbs", .arr []),
        ("pronunciation", .arr [.obj [("lang", .str "us"), ("pron", .str pron), ("url", .str url)]]),
        ("definition", .arr [.obj [("pos", posV), ("text", textV), ("example", .arr exs)]])]

/-- Lines 16-36: `normalizeMwData`, the Provider A adapter, over arbitrary
JSON-like payloads, throwing (`Except.error`) exactly where the JavaScript
throws. -/
def normalizeMwData (mwData : JVal) : Except JsErr JVal :=
  if ¬ truthy mwData then .ok .null
  else match jsGetProp mwData "length" with
  | .error e => .error e
  | .ok len =>
  if jsStrictEqNum len 0 then .ok .null
  else match jsIndex mwData 0 with
  | .error e => .error e
  | .ok entry =>
  if jsTypeof entry ≠ "object" then .ok .null
  else match mwPronPart entry with
  | .error e => .error e
  | .ok (pron, url) =>
  match mwDefnBase entry with
  | .error e => .error e
  | .ok (posV, textV) =>
  match mwSupplCond entry with
  | .error e => .error e
  | .ok (c1, exsV) =>
  match mwExamplesPart entry c1 exsV with
  | .error e => .error e
  | .ok exList =>
  match mwWord entry with
  | .error e => .error e
  | .ok w => .ok (mkMwEntry w pron url posV textV exList)

/-- JavaScript `Array.prototype.map` with a callback that can throw:
left-to-right, fail-fast. -/
def mapExceptList (f : JVal → Except JsErr JVal) : List JVal → Except JsErr (List JVal)
  | [] => .ok []
  | x :: xs =>
    match f x with
    | .error e => .error e
    | .ok y =>
      match mapExceptList f xs with
      | .error e => .error e
      | .ok ys => .ok (y :: ys)

/-- Lines 48-51: one raw example normalized to the common shape. A bare
string keeps itself as text with a null translation; otherwise `ex.text`
and (when `typeof ex == "object"`) `ex.translation` are read, throwing on
nullish `ex` exactly where the JavaScript does. -/
def geminiExample (ex : JVal) : Except JsErr JVal :=
  match (if jsTypeof ex = "string" then Except.ok ex else jsGetProp ex "text") with
  | .error e => .error e
  | .ok t =>
    match (if jsTypeof ex = "object" then jsGetProp ex "translation" else Except.ok JVal.null) with
    | .error e => .error e
    | .ok tr => .ok (.obj [("text", t), ("translation", tr)])

/-- Line 48's example mapping: only arrays have a `map` method. -/
def jsMapExamples (v : JVal) : Except JsErr (List JVal) :=
  match v with
  | .arr xs => mapExceptList geminiExample xs
  | _ => .error .typeError

/-- Lines 42-53: one "form" record mapped to one definition object: part
of speech defaults to "unknown"; only the first definition within the form
is used, with its text, nullable translation, and normalized examples. -/
def geminiForm (form : JVal) : Except JsErr JVal :=
  match jsGetProp form "definitions" with
  | .error e => .error e
  | .ok defs =>
  match jsIndex defs 0 with
  | .error e => .error e
  | .ok firstDef =>
  match jsGetProp form "partOfSpeech" with
  | .error e => .error e
  | .ok posv =>
  let posV := jsOrVal posv (.str "unknown")
  match jsGetProp firstDef "definition" with
  | .error e => .error e
  | .ok dv =>
  let textV := jsOrVal dv (.str "No definition text found.")
  match jsGetProp firstDef "definitionTranslation" with
  | .error e => .error e
  | .ok dtv =>
  let trV := jsOrVal dtv .null
  match jsGetProp firstDef "examples" with
  | .error e => .error e
  | .ok exsv =>
  match (if truthy exsv then jsMapExamples exsv else .ok []) with
  | .error e => .error e
  | .ok exs => .ok (.obj [("pos", posV), ("text", textV), ("translation", trV), ("example", .arr exs)])

/-- Line 42's `aiData.forms.map(...)`: only arrays have a `map` method. -/
def jsMapForms (v : JVal) : Except JsErr (List JVal) :=
  match v with
  | .arr xs => mapExceptList geminiForm xs
  | _ => .error .typeError

/-- The object literal returned on lines 55-62 (the Provider B canonical
entry). Field evaluation order and the `||` fallbacks follow the source. -/
def mkGeminiEntry (w trTop : JVal) (posList : List JVal) (pronV : JVal)
    (definitions : List JVal) : JVal :=
  .obj [("word", w),
        ("translation", jsOrVal trTop .null),
        ("pos", .arr posList),
        ("verbs", .arr []),
        ("pronunciation", .arr [.obj [("lang", .str "us"), ("pron", jsOrVal pronV (.str "")),
                                      ("url", .str "")]]),
        ("definition", .arr definitions)]

/-- Lines 38-63: `normalizeGeminiData`, the Provider B adapter, over
arbitrary JSON-like payloads, throwing exactly where the JavaScript
throws. -/
def normalizeGeminiData (aiData : JVal) : Except JsErr JVal :=
  if ¬ truthy aiData then .ok .null
  else match jsGetProp aiData "forms" with
  | .error e => .error e
  | .ok forms =>
  if ¬ truthy forms then .ok .null
  else match jsGetProp forms "length" with
  | .error e => .error e
  | .ok len =>
  if jsStrictEqNum len 0 then .ok .null
  else match jsMapForms forms with
  | .error e => .error e
  | .ok definitions =>
  match jsGetProp aiData "pronunciation" with
  | .error e => .error e
  | .ok pronV =>
  match jsGetProp aiData "word" with
  | .error e => .error e
  | .ok w1 =>
  match (if truthy w1 then Except.ok w1 else jsGetProp aiData "phrase") with
  | .error e => .error e
  | .ok w =>
  match jsGetProp aiData "translation" with
  | .error e => .error e
  | .ok trTop =>
  match mapExceptList (fun d => jsGetProp d "pos") definitions with
  | .error e => .error e
  | .ok posList => .ok (mkGeminiEntry w trTop posList pronV definitions)

/-- A normalized example: `text` plus nullable `translation`. -/
structure ExampleObj where
  text : String
  translation : Option String
deriving DecidableEq, Repr

/-- One definition (sense) of the canonical entry: the fields named
`pos`, `text`, `translation` and `example` in the source. -/
structure DefinitionObj where
  pos : String
  text : String
  translation : Option String
  «example» : List ExampleObj
deriving DecidableEq, Repr

/-- One pronunciation record: `lang`, phonetic `pron` and audio `url`. -/
structure PronunciationObj where
  lang : String
  pron : String
  url : String
deriving DecidableEq, Repr

/-- The canonical entry shape both adapters emit: `word`, an optional
whole-entry `translation`, the parallel `pos` array, the reserved `verbs`
array, `pronunciation` and the `definition` (senses) array. -/
structure Entry where
  word : String
  translation : Option String
  pos : List String
  verbs : List String
  pronunciation : List PronunciationObj
  definition : List DefinitionObj
deriving DecidableEq, Repr

/-- The display-relevant settings read from the settings store; each field
may be absent (`none` plays the JavaScript `undefined`). -/
structure Settings where
  definitionScope : Option String
  exampleCount : Option Nat
deriving DecidableEq, Repr

/-- JavaScript `||` with a string default over a possibly-absent string
setting: absence and the (falsy) empty string both fall back. -/
def jsOrStr (o : Option String) (d : String) : String :=
  match o with
  | none => d
  | some s => if s = "" then d else s

/-- Lines 77-83, the per-definition body of the `map`: copy the
definition, and when it has more than `count` examples replace them with
`slice(0, count)`, i.e. the first `count` examples. -/
def truncDef (count : Nat) (dfn : DefinitionObj) : DefinitionObj :=
  if dfn.«example».length > count then { dfn with «example» := dfn.«example».take count } else dfn

/-- Lines 67-86: `applyDisplayPreferences`. Scope defaults through `||` to
"relevant"; the example count defaults to 1 exactly when the setting is
absent (the source tests `!== undefined`, so an explicit 0 is kept). When
the scope is "relevant" and there is more than one definition, only the
first is retained (the source's singleton `[definitionsToUse[0]]` is
`take 1` for a list of length at least two). -/
def applyDisplayPreferences (data : Entry) (settings : Settings) : Entry :=
  let scope := jsOrStr settings.definitionScope "relevant"
  let count := match settings.exampleCount with
    | some c => c
    | none => 1
  let definitionsToUse := data.definition
  let definitionsToUse :=
    if scope = "relevant" ∧ definitionsToUse.length > 1 then definitionsToUse.take 1
    else definitionsToUse
  let finalDefinitions := definitionsToUse.map (truncDef count)
  { data with definition := finalDefinitions }

/-- Line 98: the cache-key template, as a function of the five interpolated
field strings, joined in fixed order by the underscore delimiter. -/
def displaySettingsCacheKey (source word scopeField countField targetLanguage : String) : String :=
  "qdp_" ++ source ++ "_" ++ word ++ "_" ++ scopeField ++ "_" ++ countField
    ++ "_" ++ targetLanguage

/-- Template-literal interpolation of a possibly-absent string setting:
JavaScript renders an `undefined` field as the text "undefined". -/
def jsTemplateOptStr (o : Option String) : String :=
  match o with
  | none => "undefined"
  | some s => s

/-- Template-literal interpolation of a possibly-absent numeric setting. -/
def jsTemplateOptNat (o : Option Nat) : String :=
  match o with
  | none => "undefined"
  | some n => toString n

/-- Line 98 as used at line 98 in context: `source` and `targetLanguage`
arrive already defaulted (lines 95 and 97), while the scope and count
fields interpolate the raw, possibly-absent settings values. -/
def cacheKeyOfSettings (source word targetLanguage : String) (settings : Settings) : String :=
  displaySettingsCacheKey source word (jsTemplateOptStr settings.definitionScope)
    (jsTemplateOptNat settings.exampleCount) targetLanguage

/-- A heap address. -/
abbrev Addr := Nat

/-- Heap nodes for the mutation analysis of `applyDisplayPreferences`:
entry objects, arrays of references, definition objects, example objects
and pronunciation objects. Array-valued fields hold the address of an
array node, so sharing and copying are explicit. -/
inductive HNode where
  | entryN (word : String) (translation : Option String) (pos verbs : List String)
      (pronunciation : Addr) (definition : Addr)
  | arrN (elems : List Addr)
  | defnN (pos text : String) (translation : Option String) («example» : Addr)
  | exN (text : String) (translation : Option String)
  | pronN (lang pron url : String)
deriving DecidableEq, Inhabited, Repr

/-- The heap: node at address `a` is the list element at index `a`. -/
abbrev Heap := List HNode

/-- Allocation appends a fresh node and returns its (fresh) address. -/
def allocN (h : Heap) (n : HNode) : Heap × Addr := (h ++ [n], h.length)

/-- Dereference; a dangling address reads as an empty array node (the
projector is only ever run on addresses its hypotheses make valid). -/
def readNode (h : Heap) (a : Addr) : HNode := h.getD a (.arrN [])

/-- The slice step of lines 79-81 over the heap: when the definition has
more than `count` example references a fresh sliced array is allocated,
otherwise the copy will share the original example array address. -/
def heapSliceEx (count : Nat) (h : Heap) (exA : Addr) (exAddrs : List Addr) : Heap × Addr :=
  if exAddrs.length > count then allocN h (.arrN (exAddrs.take count)) else (h, exA)

/-- Lines 77-83 over the heap, mapping the retained definition addresses:
for each definition, `{...def}` allocates a fresh shallow copy; the
conditional `slice(0, count)` allocates a fresh example array for the copy
(the write of the sliced array into the just-allocated copy is folded into
the copy's allocation), otherwise the copy shares the original example
array. Fails (`none`, modelling a thrown TypeError) if an address does not
hold the expected node shape. -/
def heapMapDefs (count : Nat) : Heap → List Addr → Option (Heap × List Addr)
  | h, [] => some (h, [])
  | h, a :: rest =>
    match readNode h a with
    | .defnN p t tr exA =>
      match readNode h exA with
      | .arrN exAddrs =>
        match heapSliceEx count h exA exAddrs with
        | (h1, exA2) =>
          match allocN h1 (.defnN p t tr exA2) with
          | (h2, defA2) =>
            match heapMapDefs count h2 rest with
            | some (h3, addrs) => some (h3, defA2 :: addrs)
            | none => none
      | _ => none
    | _ => none

/-- Lines 67-86 over the heap: read the entry and its definition array,
choose the retained definition references (the temporary spread copy
`[...data.definition]` is never stored, so it appears as the pure list of
references), map the definitions, allocate the final definitions array,
and allocate the result entry, which shares `pronunciation` with the
input via `{...data, definition: finalDefinitions}`. -/
def applyDisplayPreferencesHeap (h : Heap) (dataA : Addr) (settings : Settings) :
    Option (Heap × Addr) :=
  match readNode h dataA with
  | .entryN w tr pos verbs pronA defA =>
    match readNode h defA with
    | .arrN defAddrs =>
      match heapMapDefs (match settings.exampleCount with | some c => c | none => 1) h
          (if jsOrStr settings.definitionScope "relevant" = "relevant" ∧ defAddrs.length > 1
           then defAddrs.take 1
           else defAddrs) with
      | some (h1, newDefs) =>
        match allocN h1 (.arrN newDefs) with
        | (h2, arrA) =>
          match allocN h2 (.entryN w tr pos verbs pronA arrA) with
          | (h3, entryA) => some (h3, entryA)
      | none => none
    | _ => none
  | _ => none

theorem truncDef_example_length_le (c : Nat) (d : DefinitionObj) :
    (truncDef c d).«example».length ≤ c ∨ truncDef c d = d := by
  unfold truncDef
  split
  · left
    simp
  · right
    rfl

theorem truncDef_length_le (c : Nat) (d : DefinitionObj) :
    (truncDef c d).«example».length ≤ c := by
  unfold truncDef
  split
  · simp
  · omega

theorem truncDef_of_le (c : Nat) (d : DefinitionObj) (h : d.«example».length ≤ c) :
    truncDef c d = d := by
  unfold truncDef
  rw [if_neg]
  omega

theorem truncDef_idem (c : Nat) (d : DefinitionObj) :
    truncDef c (truncDef c d) = truncDef c d :=
  truncDef_of_le c (truncDef c d) (truncDef_length_le c d)

theorem truncDef_eq_take (c : Nat) (d : DefinitionObj) :
    truncDef c d = { d with «example» := d.«example».take c } := by
  unfold truncDef
  split
  · rfl
  · rw [List.take_of_length_le (by omega)]

theorem map_truncDef_idem (c : Nat) (l : List DefinitionObj) :
    (l.map (truncDef c)).map (truncDef c) = l.map (truncDef c) := by
  induction l with
  | nil => rfl
  | cons d t ih => simp [truncDef_idem, ih]

/-- The retained-and-truncated definition list of the projector, as a
function of the settings and the input definition list alone. -/
def projectedDefs (s : Settings) (l : List DefinitionObj) : List DefinitionObj :=
  (if jsOrStr s.definitionScope "relevant" = "relevant" ∧ l.length > 1
   then l.take 1
   else l).map
    (truncDef (match s.exampleCount with | some c => c | none => 1))

/-- Unfolding characterization of the projector: every field of the input
is kept, and the definition list is the retained list mapped through the
per-definition example truncation. -/
theorem applyDisplayPreferences_eq (data : Entry) (s : Settings) :
    applyDisplayPreferences data s =
      { data with definition := projectedDefs s data.definition } := rfl



theorem projectedDefs_length_le_one (s : Settings) (l : List DefinitionObj)
    (hsc : jsOrStr s.definitionScope "relevant" = "relevant") :
    (projectedDefs s l).length ≤ 1 := by
  unfold projectedDefs
  by_cases hcond : jsOrStr s.definitionScope "relevant" = "relevant" ∧ l.length > 1
  · rw [if_pos hcond]
    simp only [List.length_map, List.length_take]
    omega
  · rw [if_neg hcond]
    simp only [List.length_map]
    rcases not_and_or.mp hcond with h | h
    · exact absurd hsc h
    · omega

theorem projectedDefs_is_map (s : Settings) (l : List DefinitionObj) :
    ∃ m : List DefinitionObj, projectedDefs s l =
      m.map (truncDef (match s.exampleCount with | some c => c | none => 1)) := by
  unfold projectedDefs
  exact ⟨_, rfl⟩

theorem projectedDefs_idem (s : Settings) (l : List DefinitionObj) :
    projectedDefs s (projectedDefs s l) = projectedDefs s l := by
  obtain ⟨m, hm⟩ := projectedDefs_is_map s l
  by_cases hsc : jsOrStr s.definitionScope "relevant" = "relevant"
  · have hlen := projectedDefs_length_le_one s l hsc
    show (if jsOrStr s.definitionScope "relevant" = "relevant" ∧ (projectedDefs s l).length > 1
          then (projectedDefs s l).take 1
          else projectedDefs s l).map
            (truncDef (match s.exampleCount with | some c => c | none => 1))
        = projectedDefs s l
    rw [if_neg (by rintro ⟨-, h2⟩ ; omega), hm]
    exact map_truncDef_idem _ _
  · show (if jsOrStr s.definitionScope "relevant" = "relevant" ∧ (projectedDefs s l).length > 1
          then (projectedDefs s l).take 1
          else projectedDefs s l).map
            (truncDef (match s.exampleCount with | some c => c | none => 1))
        = projectedDefs s l
    rw [if_neg (fun hh => hsc hh.1), hm]
    exact map_truncDef_idem _ _

/-- Claim C4: preference projection is idempotent: re-projecting an
already-projected entry with the same preferences is a no-op. -/
theorem claim_C4_project_idempotent (e : Entry) (s : Settings) :
    applyDisplayPreferences (applyDisplayPreferences e s) s = applyDisplayPreferences e s := by
  show { applyDisplayPreferences e s with
          definition := projectedDefs s (applyDisplayPreferences e s).definition }
      = applyDisplayPreferences e s
  have h1 : (applyDisplayPreferences e s).definition = projectedDefs s e.definition := rfl
  rw [h1, projectedDefs_idem]
  rfl

/-- Claim C5: with scope "relevant" the projected entry has min(1, N)
senses, namely the first sense (with its examples truncated per the
example count) when N is at least 1; with scope "all" it has all N senses
in the original order (again with per-sense example truncation). -/
theorem claim_C5_scope_selection (e : Entry) (ce : Option Nat) :
    ((applyDisplayPreferences e ⟨some "relevant", ce⟩).definition.length
        = min 1 e.definition.length
      ∧ ∀ d rest, e.definition = d :: rest →
          (applyDisplayPreferences e ⟨some "relevant", ce⟩).definition
            = [truncDef (ce.getD 1) d])
    ∧ (applyDisplayPreferences e ⟨some "all", ce⟩).definition
        = e.definition.map (truncDef (ce.getD 1)) := by
  have hdef1 : (applyDisplayPreferences e ⟨some "relevant", ce⟩).definition
      = projectedDefs ⟨some "relevant", ce⟩ e.definition := rfl
  have hdef2 : (applyDisplayPreferences e ⟨some "all", ce⟩).definition
      = projectedDefs ⟨some "all", ce⟩ e.definition := rfl
  refine ⟨⟨?_, ?_⟩, ?_⟩
  · rw [hdef1]
    unfold projectedDefs
    by_cases hlen : e.definition.length > 1
    · rw [if_pos ⟨rfl, hlen⟩]
      simp only [List.length_map, List.length_take]
    · rw [if_neg (fun hh => hlen hh.2)]
      simp only [List.length_map]
      omega
  · intro d rest hd
    rw [hdef1]
    unfold projectedDefs
    rw [hd]
    cases rest with
    | nil =>
      rw [if_neg (by rintro ⟨-, h2⟩ ; simp at h2)]
      cases ce <;> rfl
    | cons d2 t2 =>
      rw [if_pos ⟨rfl, by simp⟩]
      cases ce <;> rfl
  · rw [hdef2]
    unfold projectedDefs
    dsimp only
    rw [if_neg (by rintro ⟨h1, -⟩ ; exact absurd h1 (by decide))]
    cases ce <;> rfl

/-- A concrete definition and entry used by the witnesses. -/
def exampleDef : DefinitionObj :=
  ⟨"verb", "move fast", none, [⟨"He can run fast.", none⟩, ⟨"Run!", none⟩]⟩

/-- A concrete canonical entry used by the witnesses. -/
def exampleEntry : Entry := ⟨"run", none, ["verb"], [], [⟨"us", "", ""⟩], [exampleDef]⟩

/-- Witness for claim C5 at a concrete entry. -/
theorem claim_C5_witness :
    (applyDisplayPreferences exampleEntry ⟨some "relevant", some 1⟩).definition
      = [truncDef 1 exampleDef] :=
  (claim_C5_scope_selection exampleEntry (some 1)).1.2 exampleDef [] rfl

/-- Claim C6: with an explicit example count k every retained sense keeps
at most k examples, namely the first k of its original examples (so it is
unchanged when it had at most k); an absent example count behaves exactly
like the explicit count 1. -/
theorem claim_C6_example_truncation (e : Entry) (sc : Option String) (k : Nat) :
    (∀ d' ∈ (applyDisplayPreferences e ⟨sc, some k⟩).definition,
        d'.«example».length ≤ k ∧
        ∃ d ∈ e.definition, d' = { d with «example» := d.«example».take k })
    ∧ applyDisplayPreferences e ⟨sc, none⟩ = applyDisplayPreferences e ⟨sc, some 1⟩ := by
  constructor
  · intro d' hd'
    have hdef : (applyDisplayPreferences e ⟨sc, some k⟩).definition
        = projectedDefs ⟨sc, some k⟩ e.definition := rfl
    rw [hdef] at hd'
    unfold projectedDefs at hd'
    rw [List.mem_map] at hd'
    obtain ⟨d, hdmem, hdd⟩ := hd'
    have hmem2 : d ∈ e.definition := by
      by_cases hcond : jsOrStr (Settings.mk sc (some k)).definitionScope "relevant" = "relevant"
          ∧ e.definition.length > 1
      · rw [if_pos hcond] at hdmem
        exact List.take_subset _ _ hdmem
      · rw [if_neg hcond] at hdmem
        exact hdmem
    refine ⟨?_, d, hmem2, ?_⟩
    · rw [← hdd]
      exact truncDef_length_le k d
    · rw [← hdd]
      exact truncDef_eq_take k d
  · rfl

/-- Witness for claim C6 at a concrete entry. -/
theorem claim_C6_witness :
    (⟨"verb", "move fast", none, [⟨"He can run fast.", none⟩]⟩ : DefinitionObj).«example».length ≤ 1
    ∧ ∃ d ∈ exampleEntry.definition,
        (⟨"verb", "move fast", none, [⟨"He can run fast.", none⟩]⟩ : DefinitionObj)
          = { d with «example» := d.«example».take 1 } :=
  (claim_C6_example_truncation exampleEntry (some "relevant") 1).1 _ (by decide)

/-- Claim C10: the lexical cache key interpolates the raw, un-defaulted
scope and count settings (absence renders as the text "undefined"), so an
all-unset request and a request with the explicit defaults use different
keys, while the projector produces the identical projected entry for
both. -/
theorem claim_C10_raw_key_default_projection (source word lang : String) (e : Entry) :
    cacheKeyOfSettings source word lang ⟨none, none⟩
        = displaySettingsCacheKey source word "undefined" "undefined" lang
    ∧ cacheKeyOfSettings source word lang ⟨none, none⟩
        ≠ cacheKeyOfSettings source word lang ⟨some "relevant", some 1⟩
    ∧ applyDisplayPreferences e ⟨none, none⟩
        = applyDisplayPreferences e ⟨some "relevant", some 1⟩ := by
  refine ⟨rfl, ?_, ?_⟩
  · intro h
    have hlen := congrArg String.length h
    simp only [cacheKeyOfSettings, displaySettingsCacheKey, jsTemplateOptStr, jsTemplateOptNat,
      String.length_append] at hlen
    have h1 : ("undefined" : String).length = 9 := rfl
    have h2 : ("relevant" : String).length = 8 := rfl
    have h3 : (toString (1 : Nat)).length = 1 := rfl
    simp only [h1, h2, h3] at hlen
    omega
  · rfl

/-- Claim C3: the cache key is a pure function of its five field strings
(identical fields give the identical key), and changing exactly one of
provider, term, scope, count or language always changes the key. -/
theorem claim_C3_cacheKey_deterministic_injective
    (s w sc c l s' w' sc' c' l' : String) :
    (s = s' → w = w' → sc = sc' → c = c' → l = l' →
      displaySettingsCacheKey s w sc c l = displaySettingsCacheKey s' w' sc' c' l')
    ∧ (w = w' → sc = sc' → c = c' → l = l' → s ≠ s' →
      displaySettingsCacheKey s w sc c l ≠ displaySettingsCacheKey s' w' sc' c' l')
    ∧ (s = s' → sc = sc' → c = c' → l = l' → w ≠ w' →
      displaySettingsCacheKey s w sc c l ≠ displaySettingsCacheKey s' w' sc' c' l')
    ∧ (s = s' → w = w' → c = c' → l = l' → sc ≠ sc' →
      displaySettingsCacheKey s w sc c l ≠ displaySettingsCacheKey s' w' sc' c' l')
    ∧ (s = s' → w = w' → sc = sc' → l = l' → c ≠ c' →
      displaySettingsCacheKey s w sc c l ≠ displaySettingsCacheKey s' w' sc' c' l')
    ∧ (s = s' → w = w' → sc = sc' → c = c' → l ≠ l' →
      displaySettingsCacheKey s w sc c l ≠ displaySettingsCacheKey s' w' sc' c' l') := by
  refine ⟨?_, ?_, ?_, ?_, ?_, ?_⟩
  · intro h1 h2 h3 h4 h5
    rw [h1, h2, h3, h4, h5]
  · intro h1 h2 h3 h4 hne hkey
    subst h1 h2 h3 h4
    apply hne
    have hd := congrArg String.data hkey
    simp only [displaySettingsCacheKey, String.data_append, List.append_assoc] at hd
    exact String.ext (List.append_cancel_right (List.append_cancel_left hd))
  · intro h1 h2 h3 h4 hne hkey
    subst h1 h2 h3 h4
    apply hne
    have hd := congrArg String.data hkey
    simp only [displaySettingsCacheKey, String.data_append, List.append_assoc] at hd
    exact String.ext (List.append_cancel_right (List.append_cancel_left
      (List.append_cancel_left (List.append_cancel_left hd))))
  · intro h1 h2 h3 h4 hne hkey
    subst h1 h2 h3 h4
    apply hne
    have hd := congrArg String.data hkey
    simp only [displaySettingsCacheKey, String.data_append, List.append_assoc] at hd
    exact String.ext (List.append_cancel_right (List.append_cancel_left
      (List.append_cancel_left (List.append_cancel_left
        (List.append_cancel_left (List.append_cancel_left hd))))))
  · intro h1 h2 h3 h4 hne hkey
    subst h1 h2 h3 h4
    apply hne
    have hd := congrArg String.data hkey
    simp only [displaySettingsCacheKey, String.data_append, List.append_assoc] at hd
    exact String.ext (List.append_cancel_right (List.append_cancel_left
      (List.append_cancel_left (List.append_cancel_left
        (List.append_cancel_left (List.append_cancel_left
          (List.append_cancel_left (List.append_cancel_left hd))))))))
  · intro h1 h2 h3 h4 hne hkey
    subst h1 h2 h3 h4
    apply hne
    have hd := congrArg String.data hkey
    simp only [displaySettingsCacheKey, String.data_append, List.append_assoc] at hd
    exact String.ext (List.append_cancel_left (List.append_cancel_left
      (List.append_cancel_left (List.append_cancel_left
        (List.append_cancel_left (List.append_cancel_left
          (List.append_cancel_left (List.append_cancel_left
            (List.append_cancel_left hd)))))))))

/-- Witness for claim C3: changing only the provider changes the key. -/
theorem claim_C3_witness :
    displaySettingsCacheKey "cambridge" "run" "relevant" "1" "none"
      ≠ displaySettingsCacheKey "gemini" "run" "relevant" "1" "none" :=
  (claim_C3_cacheKey_deterministic_injective "cambridge" "run" "relevant" "1" "none"
    "gemini" "run" "relevant" "1" "none").2.1 rfl rfl rfl rfl (by decide)

theorem allocN_prefix (h : Heap) (n : HNode) : h <+: (allocN h n).1 :=
  List.prefix_append h [n]

theorem heapSliceEx_prefix (count : Nat) (h : Heap) (exA : Addr) (exAddrs : List Addr) :
    h <+: (heapSliceEx count h exA exAddrs).1 := by
  unfold heapSliceEx
  split
  · exact List.prefix_append h _
  · exact List.prefix_rfl

theorem heapMapDefs_prefix (count : Nat) :
    ∀ (addrs : List Addr) (h h' : Heap) (out : List Addr),
      heapMapDefs count h addrs = some (h', out) → h <+: h' := by
  intro addrs
  induction addrs with
  | nil =>
    intro h h' out hh
    unfold heapMapDefs at hh
    injection hh with hh
    injection hh with hh1 hh2
    rw [← hh1]
  | cons a rest ih =>
    intro h h' out hh
    unfold heapMapDefs at hh
    cases hna : readNode h a with
    | defnN p t tr exA =>
      rw [hna] at hh
      dsimp only at hh
      cases hnx : readNode h exA with
      | arrN exAddrs =>
        rw [hnx] at hh
        dsimp only at hh
        cases hrec : heapMapDefs count (allocN (heapSliceEx count h exA exAddrs).1
            (.defnN p t tr (heapSliceEx count h exA exAddrs).2)).1 rest with
        | some pr =>
          have hpre1 : h <+: (heapSliceEx count h exA exAddrs).1 :=
            heapSliceEx_prefix count h exA exAddrs
          have hpre2 : (heapSliceEx count h exA exAddrs).1 <+:
              (allocN (heapSliceEx count h exA exAddrs).1
                (.defnN p t tr (heapSliceEx count h exA exAddrs).2)).1 :=
            allocN_prefix _ _
          have hpre3 := ih _ pr.1 pr.2 (by rw [← hrec])
          rw [hrec] at hh
          dsimp only at hh
          injection hh with hh
          injection hh with hh1 hh2
          rw [← hh1]
          exact (hpre1.trans hpre2).trans hpre3
        | none =>
          rw [hrec] at hh
          simp at hh
      | entryN w tr2 pos verbs pronA defA =>
        rw [hnx] at hh
        simp at hh
      | defnN p2 t2 tr2 exA2 =>
        rw [hnx] at hh
        simp at hh
      | exN t2 tr2 =>
        rw [hnx] at hh
        simp at hh
      | pronN lg pr u =>
        rw [hnx] at hh
        simp at hh
    | entryN w tr2 pos verbs pronA defA =>
      rw [hna] at hh
      simp at hh
    | arrN elems =>
      rw [hna] at hh
      simp at hh
    | exN t2 tr2 =>
      rw [hna] at hh
      simp at hh
    | pronN lg pr u =>
      rw [hna] at hh
      simp at hh

theorem readNode_of_prefix {h h' : Heap} (hp : h <+: h') (a : Addr) (ha : a < h.length) :
    readNode h' a = readNode h a := by
  obtain ⟨t, rfl⟩ := hp
  unfold readNode
  exact List.getD_append _ _ _ _ ha

/-- Claim C9: the heap-level projector never writes to an existing
address: every node reachable before the call (in particular the input
entry, its definition array and each definition's example array) reads
identically after the call, and the returned entry lives at a fresh
address. -/
theorem claim_C9_no_mutation (h : Heap) (dataA : Addr) (s : Settings) (hout : Heap) (r : Addr)
    (hrun : applyDisplayPreferencesHeap h dataA s = some (hout, r)) :
    (∀ a, a < h.length → readNode hout a = readNode h a) ∧ h.length ≤ r := by
  unfold applyDisplayPreferencesHeap at hrun
  cases hna : readNode h dataA with
  | entryN w tr pos verbs pronA defA =>
    rw [hna] at hrun
    dsimp only at hrun
    cases hnd : readNode h defA with
    | arrN defAddrs =>
      rw [hnd] at hrun
      dsimp only at hrun
      cases hrec : heapMapDefs (match s.exampleCount with | some c => c | none => 1) h
          (if jsOrStr s.definitionScope "relevant" = "relevant" ∧ defAddrs.length > 1
           then defAddrs.take 1
           else defAddrs) with
      | some pr =>
        rw [hrec] at hrun
        dsimp only at hrun
        injection hrun with hrun
        injection hrun with hh1 hh2
        have hpre1 : h <+: pr.1 :=
          heapMapDefs_prefix _ _ _ pr.1 pr.2 (by rw [← hrec])
        have hpre2 : pr.1 <+: (allocN pr.1 (.arrN pr.2)).1 := allocN_prefix _ _
        have hpre3 : (allocN pr.1 (.arrN pr.2)).1 <+:
            (allocN (allocN pr.1 (.arrN pr.2)).1
              (.entryN w tr pos verbs pronA (allocN pr.1 (.arrN pr.2)).2)).1 :=
          allocN_prefix _ _
        have htot : h <+: hout := by
          rw [← hh1]
          exact (hpre1.trans hpre2).trans hpre3
        refine ⟨fun a ha => readNode_of_prefix htot a ha, ?_⟩
        have hlen1 : h.length ≤ pr.1.length := hpre1.length_le
        rw [← hh2]
        simp only [allocN, List.length_append, List.length_cons, List.length_nil]
        omega
      | none =>
        rw [hrec] at hrun
        simp at hrun
    | entryN w2 tr2 pos2 verbs2 pronA2 defA2 =>
      rw [hnd] at hrun
      simp at hrun
    | defnN p2 t2 tr2 exA2 =>
      rw [hnd] at hrun
      simp at hrun
    | exN t2 tr2 =>
      rw [hnd] at hrun
      simp at hrun
    | pronN lg pr2 u =>
      rw [hnd] at hrun
      simp at hrun
  | arrN elems =>
    rw [hna] at hrun
    simp at hrun
  | defnN p2 t2 tr2 exA2 =>
    rw [hna] at hrun
    simp at hrun
  | exN t2 tr2 =>
    rw [hna] at hrun
    simp at hrun
  | pronN lg pr2 u =>
    rw [hna] at hrun
    simp at hrun

/-- A concrete heap used by the C9 witness: an entry at address 0 whose
definition array (address 1) holds one definition (address 2) with one
example (addresses 3 and 4), and a pronunciation array at addresses 5
and 6. -/
def exampleHeap : Heap :=
  [.entryN "run" none ["verb"] [] 5 1,
   .arrN [2],
   .defnN "verb" "move fast" none 3,
   .arrN [4],
   .exN "He can run fast." none,
   .arrN [6],
   .pronN "us" "" ""]

/-- Witness for claim C9 at a concrete heap and settings. -/
theorem claim_C9_witness :
    readNode (exampleHeap ++ [.defnN "verb" "move fast" none 3, .arrN [7],
        .entryN "run" none ["verb"] [] 5 8]) 0 = readNode exampleHeap 0
    ∧ exampleHeap.length ≤ 9 := by
  have hrun : applyDisplayPreferencesHeap exampleHeap 0 ⟨some "relevant", some 1⟩
      = some (exampleHeap ++ [.defnN "verb" "move fast" none 3, .arrN [7],
          .entryN "run" none ["verb"] [] 5 8], 9) := rfl
  exact ⟨(claim_C9_no_mutation _ _ _ _ _ hrun).1 0 (by decide),
         (claim_C9_no_mutation _ _ _ _ _ hrun).2⟩

/-- Claim C7: bucket selection for the Provider A audio URL is a pure
function of the token's prefix: a token starting b-i-x maps to bucket
"bix", one starting g-g to "gg", a leading underscore followed by a digit
to "number", and any other token to its first character; and the audio URL
is the base, the language path, "wav", the bucket and the token with a
".wav" suffix. -/
theorem claim_C7_bucket_selection (token : String) :
    (∀ rest, token.data = 'b' :: 'i' :: 'x' :: rest → mwAudioSubdir token = "bix")
    ∧ (∀ rest, token.data = 'g' :: 'g' :: rest → mwAudioSubdir token = "gg")
    ∧ (∀ c rest, token.data = '_' :: c :: rest → '0' ≤ c → c ≤ '9' →
        mwAudioSubdir token = "number")
    ∧ ((∀ rest, token.data ≠ 'b' :: 'i' :: 'x' :: rest) →
       (∀ rest, token.data ≠ 'g' :: 'g' :: rest) →
       (∀ c rest, token.data = '_' :: c :: rest → ¬('0' ≤ c ∧ c ≤ '9')) →
       ∀ c rest, token.data = c :: rest → mwAudioSubdir token = String.mk [c])
    ∧ mwAudioUrl token = "https://media.merriam-webster.com/audio/prons/en/us/wav/"
        ++ mwAudioSubdir token ++ "/" ++ token ++ ".wav" := by
  have hbix : ("bix" : String).data = ['b', 'i', 'x'] := rfl
  have hgg : ("gg" : String).data = ['g', 'g'] := rfl
  refine ⟨?_, ?_, ?_, ?_, rfl⟩
  · intro rest h
    simp [mwAudioSubdir, jsStartsWith, hbix, h, List.isPrefixOf]
  · intro rest h
    simp [mwAudioSubdir, jsStartsWith, hbix, hgg, h, List.isPrefixOf]
  · intro c rest h h0 h9
    simp [mwAudioSubdir, jsStartsWith, mwMatchUnderscoreDigit, hbix, hgg, h,
      List.isPrefixOf, h0, h9]
  · intro hnb hng hnd c rest h
    have hb : jsStartsWith token "bix" = false := by
      by_cases hp : List.isPrefixOf ['b', 'i', 'x'] token.data
      · obtain ⟨t, ht⟩ := List.isPrefixOf_iff_prefix.mp hp
        exact absurd ht.symm (hnb t)
      · simp only [jsStartsWith, hbix]
        exact Bool.eq_false_iff.mpr hp
    have hg : jsStartsWith token "gg" = false := by
      by_cases hp : List.isPrefixOf ['g', 'g'] token.data
      · obtain ⟨t, ht⟩ := List.isPrefixOf_iff_prefix.mp hp
        exact absurd ht.symm (hng t)
      · simp only [jsStartsWith, hgg]
        exact Bool.eq_false_iff.mpr hp
    have hu : mwMatchUnderscoreDigit token = false := by
      by_cases hp : mwMatchUnderscoreDigit token = true
      · unfold mwMatchUnderscoreDigit at hp
        split at hp
        · rename_i c2 rest2 heq
          exact absurd (of_decide_eq_true hp) (hnd c2 rest2 heq)
        · exact absurd hp (by simp)
      · simpa using hp
    simp only [mwAudioSubdir, hb, hg, hu, Bool.false_eq_true, if_false]
    unfold jsCharAt0
    rw [h]

/-- Witness for claim C7 on the spec's three sample tokens. -/
theorem claim_C7_witness :
    mwAudioSubdir "bix123" = "bix"
    ∧ mwAudioSubdir "_45abc" = "number"
    ∧ mwAudioSubdir "xyz" = "x" :=
  ⟨(claim_C7_bucket_selection "bix123").1 ['1', '2', '3'] rfl,
   (claim_C7_bucket_selection "_45abc").2.2.1 '4' ['5', 'a', 'b', 'c'] rfl
     (by decide) (by decide),
   (claim_C7_bucket_selection "xyz").2.2.2.1
     (by intro rest hr ; exact absurd hr (by simp))
     (by intro rest hr ; exact absurd hr (by simp))
     (by intro c rest hr ; exact absurd hr (by simp))
     'x' ['y', 'z'] rfl⟩

/-- A valid Provider A payload for the short-definition analysis: one
entry record with a compound identifier, an optional functional label and
a short-definition list (pronunciation, supplemental examples and the
defined-senses structure are absent, which the adapter treats as missing
optional structure). -/
def mkMwPayload (metaId : String) (fl : Option String) (shortdef : List String) : JVal :=
  .arr [.obj ([("meta", .obj [("id", .str metaId)])]
    ++ (match fl with | some f => [("fl", .str f)] | none => [])
    ++ [("shortdef", .arr (shortdef.map .str))])]

/-- Observation helper: the `text` of the first definition of an adapted
entry, when the adapter succeeded with a well-shaped entry object. -/
def entryDefText (r : Except JsErr JVal) : Option JVal :=
  match r with
  | .ok (.obj fs) =>
    match (fs.lookup "definition").getD .undef with
    | .arr (d :: _) =>
      match d with
      | .obj dfs => some ((dfs.lookup "text").getD .undef)
      | _ => none
    | _ => none
  | _ => none

theorem normalizeMwData_mkMwPayload (metaId : String) (fl : Option String) (sd : List String) :
    normalizeMwData (mkMwPayload metaId fl sd)
      = .ok (mkMwEntry ((metaId.splitOn ":").headD "") "" ""
          (jsOrVal (match fl with | some f => .str f | none => .undef) (.str "unknown"))
          (jsOrVal (match sd with | s :: _ => .str s | [] => .undef)
            (.str "No definition found."))
          []) := by
  cases fl <;> cases sd <;>
    simp [normalizeMwData, mkMwPayload, mwPronPart, mwDefnBase, mwSupplCond, mwExamplesPart,
      mwDefCond, mwWord, jsGetProp, jsIndex, truthy, jsTypeof, jsStrictEqNum, jsOrVal,
      List.lookup, List.getD]

/-- Claim C8 (amended): for a valid Provider A payload the first sense's
definition text is the first short-definition string verbatim when that
string is non-empty; when the short-definition list is empty, or its first
string is the (falsy) empty string, the text is the fixed fallback
"No definition found.". -/
theorem claim_C8_shortdef_text (metaId : String) (fl : Option String) :
    (∀ s rest, s ≠ "" →
        entryDefText (normalizeMwData (mkMwPayload metaId fl (s :: rest))) = some (.str s))
    ∧ (∀ rest, entryDefText (normalizeMwData (mkMwPayload metaId fl ("" :: rest)))
        = some (.str "No definition found."))
    ∧ entryDefText (normalizeMwData (mkMwPayload metaId fl []))
        = some (.str "No definition found.") := by
  refine ⟨?_, ?_, ?_⟩
  · intro s rest hs
    rw [normalizeMwData_mkMwPayload]
    simp [entryDefText, mkMwEntry, jsOrVal, truthy, hs, List.lookup]
  · intro rest
    rw [normalizeMwData_mkMwPayload]
    simp [entryDefText, mkMwEntry, jsOrVal, truthy, List.lookup]
  · rw [normalizeMwData_mkMwPayload]
    simp [entryDefText, mkMwEntry, jsOrVal, truthy, List.lookup]

/-- Witness for claim C8 at a concrete payload. -/
theorem claim_C8_witness :
    entryDefText (normalizeMwData (mkMwPayload "run:1" (some "verb")
        ["to move fast", "to operate"]))
      = some (.str "to move fast") :=
  (claim_C8_shortdef_text "run:1" (some "verb")).1 "to move fast" ["to operate"] (by decide)

/-- Counterexample to claim C8 as stated: a valid Provider A payload whose
short-definition list is non-empty but starts with the empty string; the
adapted definition text is the fallback, not the first string verbatim. -/
theorem claim_C8_counterexample :
    entryDefText (normalizeMwData (mkMwPayload "run:1" none [""]))
      = some (.str "No definition found.")
    ∧ JVal.str "No definition found." ≠ JVal.str "" := by
  constructor
  · rfl
  · intro h
    injection h with h
    exact absurd h (by decide)

/-- Observation helper: the `pos` array of an adapted entry object. -/
def entryPosArr (v : JVal) : Option (List JVal) :=
  match v with
  | .obj fs =>
    match (fs.lookup "pos").getD .undef with
    | .arr ps => some ps
    | _ => none
  | _ => none

/-- Observation helper: the `definition` array of an adapted entry object. -/
def entryDefArr (v : JVal) : Option (List JVal) :=
  match v with
  | .obj fs =>
    match (fs.lookup "definition").getD .undef with
    | .arr ds => some ds
    | _ => none
  | _ => none

theorem mapExceptList_length (f : JVal → Except JsErr JVal) :
    ∀ (xs : List JVal) (ys : List JVal), mapExceptList f xs = .ok ys → ys.length = xs.length := by
  intro xs
  induction xs with
  | nil =>
    intro ys h
    unfold mapExceptList at h
    injection h with h
    rw [← h]
  | cons x t ih =>
    intro ys h
    unfold mapExceptList at h
    cases hfx : f x with
    | error e =>
      rw [hfx] at h
      simp at h
    | ok y =>
      rw [hfx] at h
      dsimp only at h
      cases hrec : mapExceptList f t with
      | error e =>
        rw [hrec] at h
        simp at h
      | ok ys0 =>
        rw [hrec] at h
        dsimp only at h
        injection h with h
        rw [← h]
        simp [ih ys0 hrec]

theorem normalizeMwData_parallel (v r : JVal) (h : normalizeMwData v = .ok r) :
    r = .null ∨ ∃ ps ds, entryPosArr r = some ps ∧ entryDefArr r = some ds
      ∧ ps.length = ds.length := by
  unfold normalizeMwData at h
  repeat' split at h
  all_goals first
    | (injection h ; done)
    | (injection h with h2
       subst h2
       first
        | exact Or.inl rfl
        | exact Or.inr ⟨_, _, rfl, rfl, rfl⟩)

theorem normalizeGeminiData_parallel (v r : JVal) (h : normalizeGeminiData v = .ok r) :
    r = .null ∨ ∃ ps ds, entryPosArr r = some ps ∧ entryDefArr r = some ds
      ∧ ps.length = ds.length := by
  unfold normalizeGeminiData at h
  repeat' split at h
  all_goals first
    | (injection h ; done)
    | (injection h with h2
       subst h2
       first
        | exact Or.inl rfl
        | exact Or.inr ⟨_, _, rfl, rfl, mapExceptList_length _ _ _ (by assumption)⟩)

/-- A two-sense entry with matching parallel arrays, used to exhibit the
projector's behaviour on multiple senses. -/
def twoSenseEntry : Entry :=
  ⟨"run", none, ["noun", "verb"], [], [⟨"us", "", ""⟩],
   [⟨"noun", "a jog", none, []⟩, ⟨"verb", "to jog", none, []⟩]⟩

/-- Claim C2 (amended): both adapters establish the parallel-arrays
invariant (`pos` and `definition` have equal lengths; for Provider A both
are singletons). The projector `applyDisplayPreferences` preserves the
invariant only when the scope is not "relevant" or the entry has at most
one sense: it trims `definition` but leaves `pos` untouched. -/
theorem claim_C2_parallel_arrays :
    (∀ v r, normalizeMwData v = .ok r →
      r = .null ∨ ∃ ps ds, entryPosArr r = some ps ∧ entryDefArr r = some ds
        ∧ ps.length = ds.length)
    ∧ (∀ v r, normalizeGeminiData v = .ok r →
      r = .null ∨ ∃ ps ds, entryPosArr r = some ps ∧ entryDefArr r = some ds
        ∧ ps.length = ds.length)
    ∧ (∀ (e : Entry) (s : Settings), e.pos.length = e.definition.length →
        (jsOrStr s.definitionScope "relevant" ≠ "relevant" ∨ e.definition.length ≤ 1) →
        (applyDisplayPreferences e s).pos.length
          = (applyDisplayPreferences e s).definition.length) := by
  refine ⟨normalizeMwData_parallel, normalizeGeminiData_parallel, ?_⟩
  intro e s hinv hside
  have hpos : (applyDisplayPreferences e s).pos = e.pos := rfl
  have hdef : (applyDisplayPreferences e s).definition = projectedDefs s e.definition := rfl
  rw [hpos, hdef]
  unfold projectedDefs
  rw [if_neg]
  · rw [List.length_map]
    exact hinv
  · rintro ⟨h1, h2⟩
    rcases hside with h | h
    · exact h h1
    · omega

/-- Counterexample to claim C2 as stated: projecting a two-sense entry
with scope "relevant" yields two parts of speech but a single sense, so
the projector output violates the parallel-arrays invariant. -/
theorem claim_C2_counterexample :
    ¬((applyDisplayPreferences twoSenseEntry ⟨some "relevant", some 1⟩).pos.length
        = (applyDisplayPreferences twoSenseEntry ⟨some "relevant", some 1⟩).definition.length) := by
  decide

/-- Witness for claim C2 at concrete inputs. -/
theorem claim_C2_witness :
    (JVal.null = JVal.null ∨ ∃ ps ds, entryPosArr JVal.null = some ps
      ∧ entryDefArr JVal.null = some ds ∧ ps.length = ds.length)
    ∧ (JVal.null = JVal.null ∨ ∃ ps ds, entryPosArr JVal.null = some ps
      ∧ entryDefArr JVal.null = some ds ∧ ps.length = ds.length)
    ∧ (applyDisplayPreferences twoSenseEntry ⟨some "all", some 1⟩).pos.length
        = (applyDisplayPreferences twoSenseEntry ⟨some "all", some 1⟩).definition.length :=
  ⟨claim_C2_parallel_arrays.1 (.num 0) .null rfl,
   claim_C2_parallel_arrays.2.1 (.num 0) .null rfl,
   claim_C2_parallel_arrays.2.2 twoSenseEntry ⟨some "all", some 1⟩ (by decide)
     (Or.inl (by decide))⟩

/-- Observation helper: the `word` field of an adapted entry object. -/
def entryWordVal (v : JVal) : Option JVal :=
  match v with
  | .obj fs => some ((fs.lookup "word").getD .undef)
  | _ => none

/-- Claim C1 (amended): each adapter returns null, without throwing,
exactly when its top-level guard rejects the payload: for Provider A a
falsy payload, an empty array, or a first element that is not of type
"object"; for Provider B a falsy payload, a falsy or absent `forms` field,
or an empty `forms` array. Beyond these guards the adapters are not total
over payloads lacking the minimum viable fields: Provider A throws on a
guard-passing record with no headword and no senses, and Provider B
returns a non-null entry whose headword is undefined when `forms` is
usable but both `word` and `phrase` are absent. -/
theorem claim_C1_guard_null :
    (∀ v, truthy v = false →
      normalizeMwData v = .ok .null ∧ normalizeGeminiData v = .ok .null)
    ∧ normalizeMwData (.arr []) = .ok .null
    ∧ (∀ x xs, jsTypeof x ≠ "object" → normalizeMwData (.arr (x :: xs)) = .ok .null)
    ∧ (∀ fs : List (String × JVal), truthy ((fs.lookup "forms").getD .undef) = false →
        normalizeGeminiData (.obj fs) = .ok .null)
    ∧ (∀ fs : List (String × JVal), (fs.lookup "forms").getD .undef = .arr [] →
        normalizeGeminiData (.obj fs) = .ok .null)
    ∧ (∃ r, normalizeGeminiData (.obj [("forms", .arr [.obj [("definitions",
          .arr [.obj [("definition", .str "d")]])]])]) = .ok r
        ∧ r ≠ .null ∧ entryWordVal r = some .undef) := by
  refine ⟨?_, rfl, ?_, ?_, ?_, ?_⟩
  · intro v hv
    constructor
    · unfold normalizeMwData
      rw [if_pos (by simp [hv])]
    · unfold normalizeGeminiData
      rw [if_pos (by simp [hv])]
  · intro x xs hx
    unfold normalizeMwData
    rw [if_neg (by simp [truthy])]
    simp only [jsGetProp, jsStrictEqNum, jsIndex, List.length_cons, List.getD_cons_zero]
    rw [if_neg (by simp ; omega), if_pos hx]
  · intro fs hf
    unfold normalizeGeminiData
    rw [if_neg (by simp [truthy])]
    simp only [jsGetProp]
    rw [if_pos (by simp [hf])]
  · intro fs hf
    unfold normalizeGeminiData
    rw [if_neg (by simp [truthy])]
    simp only [jsGetProp]
    rw [hf]
    rw [if_neg (by simp [truthy])]
    simp [jsGetProp, jsStrictEqNum]
  · exact ⟨_, rfl, by simp [mkGeminiEntry], rfl⟩

/-- Counterexample to claim C1 as stated: the payload [{}] (a single
entry record lacking both the headword and the senses) makes
normalizeMwData throw a TypeError (reading `entry.shortdef[0]`) instead
of returning null. -/
theorem claim_C1_counterexample :
    normalizeMwData (.arr [.obj []]) = .error .typeError := rfl

/-- Witness for claim C1 at concrete guard-rejected payloads. -/
theorem claim_C1_witness :
    (normalizeMwData (.num 0) = .ok .null ∧ normalizeGeminiData (.num 0) = .ok .null)
    ∧ normalizeMwData (.arr [.str "suggestion"]) = .ok .null
    ∧ normalizeGeminiData (.obj []) = .ok .null :=
  ⟨claim_C1_guard_null.1 (.num 0) rfl,
   claim_C1_guard_null.2.2.1 (.str "suggestion") [] (by decide),
   claim_C1_guard_null.2.2.2.1 [] rfl⟩

/-- Witness for claim C10 at concrete field values. -/
theorem claim_C10_witness :
    cacheKeyOfSettings "cambridge" "run" "none" ⟨none, none⟩
      ≠ cacheKeyOfSettings "cambridge" "run" "none" ⟨some "relevant", some 1⟩ :=
  (claim_C10_raw_key_default_projection "cambridge" "run" "none" exampleEntry).2.1
